import Mathlib

/-!
Verification of the image batch-conversion pipeline (`src/config.py`,
`src/utils.py`, `src/image_processing.py`, `src/app.py`) against its
natural-language specification.  The Python code is shallowly embedded:
a Pillow image is a `Frame` (mode, size, relevant `info` entries), a
decoded file is a `SourceImage` (representative frame, remaining frames,
`is_animated` flag), and `_process_single_image` becomes a pure function
returning either the save call it would issue or the exception kind that
its handlers catch.
-/

namespace ImageComp

/-- Pillow color-mode strings that the code inspects ("RGB", "RGBA", "LA",
"P", "L", plus a stand-in for any other mode). -/
inductive Mode where
  | RGB | RGBA | LA | P | L | CMYK
deriving DecidableEq, Repr

/-- One Pillow image/frame as seen by this code: its mode, its pixel size,
and the `info` entries the code reads (the "transparency" key, and the
"duration" / "loop" animation metadata). -/
structure Frame where
  mode : Mode
  width : Nat
  height : Nat
  /-- whether `"transparency" in img.info` holds -/
  transparencyInfo : Bool
  durationInfo : Option Nat
  loopInfo : Option Nat
deriving DecidableEq, Repr

/-- `img.convert(mode=m)`: same pixels reinterpreted, new mode.  Size and
the info entries this code later reads are carried over. -/
def Frame.convert (f : Frame) (m : Mode) : Frame :=
  { f with mode := m }

/-- `img.resize(size=target)`: exact resize, both dimensions set. -/
def Frame.resizeTo (f : Frame) (tr : Nat × Nat) : Frame :=
  { f with width := tr.1, height := tr.2 }

/-- `img.copy()`. -/
def Frame.copy (f : Frame) : Frame := f

/-- A decoded file: the already-loaded representative frame (index 0), the
remaining frames (indices 1..), and the decoder's `is_animated` flag.
`n_frames` is `1 + rest.length`. -/
structure SourceImage where
  frame0 : Frame
  rest : List Frame
  isAnimated : Bool
deriving DecidableEq, Repr

/-- `img.n_frames`. -/
def SourceImage.nFrames (s : SourceImage) : Nat := s.rest.length + 1

/-- The format table `SUPPORTED_FORMATS` of `src/config.py`:
identifier to Pillow format name and recognized suffixes,
in the source's insertion order. -/
structure FormatDetails where
  pillow_format : String
  suffixes : List String
deriving DecidableEq, Repr

def ALL_FORMATS_KEYWORD : String := "all"

def SUPPORTED_FORMATS : List (String × FormatDetails) :=
  [ ("png",  ⟨"PNG",  [".png"]⟩),
    ("jpg",  ⟨"JPEG", [".jpg", ".jpeg", ".jfif", ".jpe"]⟩),
    ("jpeg", ⟨"JPEG", [".jpg", ".jpeg", ".jfif", ".jpe"]⟩),
    ("webp", ⟨"WEBP", [".webp"]⟩),
    ("tiff", ⟨"TIFF", [".tiff", ".tif"]⟩),
    ("bmp",  ⟨"BMP",  [".bmp"]⟩),
    ("gif",  ⟨"GIF",  [".gif"]⟩),
    ("apng", ⟨"PNG",  [".png", ".apng"]⟩),
    ("heic", ⟨"HEIF", [".heic"]⟩),
    ("heif", ⟨"HEIF", [".heif", ".avif"]⟩) ]

/-- Options passed to `Image.save`, as built by `get_pillow_save_options`
plus the animated-save additions.  Absent dictionary keys are `none`
(or `false` / `[]` for the flag and list entries). -/
structure SaveOptions where
  quality : Option Nat := none
  optimize : Bool := false
  save_all : Bool := false
  duration : Option Nat := none
  loop : Option Nat := none
  append_images : List Frame := []
deriving DecidableEq, Repr

/-- `get_pillow_save_options` of `src/utils.py`: quality for JPEG, WEBP and
HEIF; optimize for PNG; nothing otherwise. -/
def get_pillow_save_options (output_pillow_format : String) (quality : Nat) :
    SaveOptions :=
  let opts : SaveOptions := {}
  let opts1 :=
    if output_pillow_format ∈ ["JPEG", "WEBP", "HEIF"] then
      { opts with quality := some quality }
    else opts
  if output_pillow_format = "PNG" then { opts1 with optimize := true } else opts1

/-- `str.lower()` over the character list (the ASCII case mapping of
`Char.toLower`), written to reduce definitionally. -/
def strLower (s : String) : String := ⟨s.data.map Char.toLower⟩

/-- `str.upper()`. -/
def strUpper (s : String) : String := ⟨s.data.map Char.toUpper⟩

/-- `str.lstrip(".")`: drop every leading dot. -/
def lstripDots (s : String) : String := ⟨s.data.dropWhile (· == '.')⟩

/-- `name.endswith(suffix)`, the effect of the `*{suffix}` glob pattern on
a directory entry name. -/
def strEndsWith (s suffix : String) : Bool := suffix.data.isSuffixOf s.data

/-- `validate_and_get_format_details` of `src/utils.py`: lowercase, strip
leading dots, accept the wildcard for inputs, look the identifier up in
`SUPPORTED_FORMATS`; `none` models `print_error` + `typer.Exit(code=1)`. -/
def validate_and_get_format_details (format_str : String)
    (format_type : String) : Option FormatDetails :=
  let normalized := lstripDots (strLower format_str)
  if format_type = "input" ∧ normalized = ALL_FORMATS_KEYWORD then
    some ⟨ALL_FORMATS_KEYWORD, [ALL_FORMATS_KEYWORD]⟩
  else
    match SUPPORTED_FORMATS.find? (fun p => p.1 == normalized) with
    | some p => some p.2
    | none => none

/-- The rounding step of Pillow's `Image.thumbnail`: pick whichever of
floor and ceil minimizes the key (ties go to floor, as Python's `min`
does), then clamp to at least 1.  Pillow computes with floats; here the
same arithmetic is carried out exactly over `ℚ`. -/
def roundAspect (q : ℚ) (key : ℤ → ℚ) : ℤ :=
  max (if key ⌊q⌋ ≤ key ⌈q⌉ then ⌊q⌋ else ⌈q⌉) 1

/-- Size computed by Pillow's `Image.thumbnail((x, y))` for a `w × h`
image (the external codec's documented fit-resize: shrink to the bounding
box preserving the aspect ratio, never enlarging).  If the image already
fits, the size is unchanged; otherwise the constrained dimension is kept
and the other is `roundAspect` of the exact rational value. -/
def thumbnailSize (w h x y : ℕ) : ℕ × ℕ :=
  if x ≥ w ∧ y ≥ h then (w, h)
  else if (w : ℚ) / (h : ℚ) ≤ (x : ℚ) / (y : ℚ) then
    ((roundAspect ((y : ℚ) * ((w : ℚ) / (h : ℚ)))
        (fun n => |(w : ℚ) / (h : ℚ) - (n : ℚ) / (y : ℚ)|)).toNat, y)
  else
    (x, (roundAspect ((x : ℚ) / ((w : ℚ) / (h : ℚ)))
        (fun n => if n = 0 then 0
                  else |(w : ℚ) / (h : ℚ) - (x : ℚ) / (n : ℚ)|)).toNat)

/-- `img.thumbnail(size=target)`: in-place fit resize. -/
def Frame.thumbnailTo (f : Frame) (tr : Nat × Nat) : Frame :=
  { f with width := (thumbnailSize f.width f.height tr.1 tr.2).1,
           height := (thumbnailSize f.width f.height tr.1 tr.2).2 }

/-- Per-frame body of the animated-resize loop in `_process_single_image`:
a Palette frame is converted to RGBA before resizing (otherwise copied),
then force-resized or thumbnailed. -/
def resizeFrameForAnim (forceAspect : Bool) (tr : Nat × Nat) (fr : Frame) :
    Frame :=
  let frame_to_resize := if fr.mode = Mode.P then fr.convert Mode.RGBA else fr.copy
  if forceAspect then frame_to_resize.resizeTo tr
  else frame_to_resize.thumbnailTo tr

/-- State of the working variables after the resize stage of
`_process_single_image`: the working image `img` (its frame together with
the `is_animated` / `n_frames` attributes the later code reads from it)
and `resized_frames_for_animation`. -/
structure ResizeOut where
  frame : Frame
  wAnim : Bool
  wN : Nat
  retained : Option (List Frame)
deriving DecidableEq, Repr

/-- Resize stage of `_process_single_image`.  With no target resolution
nothing happens.  An animated image (`is_animated` and `n_frames > 1`)
has every frame resized by `resizeFrameForAnim`; the first resized frame
replaces `img` (a plain image: `is_animated` is absent, `n_frames` is 1)
and the whole sequence is retained.  Otherwise a single frame is resized:
`img.resize` returns a fresh plain image, while `img.thumbnail` mutates
in place so the handle keeps its attributes. -/
def resizeStage (img0 : SourceImage) (target_resolution : Option (Nat × Nat))
    (forceAspect : Bool) : ResizeOut :=
  match target_resolution with
  | none => ⟨img0.frame0, img0.isAnimated, img0.nFrames, none⟩
  | some tr =>
    if img0.isAnimated = true ∧ img0.nFrames > 1 then
      match (img0.frame0 :: img0.rest).map (resizeFrameForAnim forceAspect tr) with
      | [] => ⟨img0.frame0, img0.isAnimated, img0.nFrames, none⟩
      | f :: fs => ⟨f, false, 1, some (f :: fs)⟩
    else
      if forceAspect then ⟨img0.frame0.resizeTo tr, false, 1, none⟩
      else ⟨img0.frame0.thumbnailTo tr, img0.isAnimated, img0.nFrames, none⟩

/-- Second half of the JPEG mode-normalization block: if, after the
optional Palette-to-RGBA promotion, the working frame is RGBA or LA it is
converted to RGB, and in that case the retained resized frames with mode
RGBA or LA are converted to RGB too. -/
def jpegFlatten (fr1 : Frame) (retained : Option (List Frame)) :
    Frame × Option (List Frame) :=
  if fr1.mode ∈ [Mode.RGBA, Mode.LA] then
    (fr1.convert Mode.RGB,
     retained.map (List.map (fun f =>
       if f.mode ∈ [Mode.RGBA, Mode.LA] then f.convert Mode.RGB else f)))
  else (fr1, retained)

/-- JPEG mode-normalization block of `_process_single_image`: when the
target codec format is JPEG and the working frame is RGBA, LA or P, a
Palette frame with a transparency entry is first converted to RGBA, then
`jpegFlatten` strips the remaining alpha. -/
def jpegStage (output_pillow_format : String) (fr : Frame)
    (retained : Option (List Frame)) : Frame × Option (List Frame) :=
  if output_pillow_format = "JPEG" ∧ fr.mode ∈ [Mode.RGBA, Mode.LA, Mode.P] then
    jpegFlatten (if fr.mode = Mode.P ∧ fr.transparencyInfo = true
                 then fr.convert Mode.RGBA else fr) retained
  else (fr, retained)

/-- APNG block of `_process_single_image`: when `output_is_apng` and the
working frame is Palette with a transparency entry, convert it (and any
retained Palette-with-transparency frames) to RGBA. -/
def apngStage (output_is_apng : Bool) (fr : Frame)
    (retained : Option (List Frame)) : Frame × Option (List Frame) :=
  if output_is_apng = true ∧ fr.mode = Mode.P ∧ fr.transparencyInfo = true then
    (fr.convert Mode.RGBA,
     retained.map (List.map (fun f =>
       if f.mode = Mode.P ∧ f.transparencyInfo = true
       then f.convert Mode.RGBA else f)))
  else (fr, retained)

/-- Per-frame normalization applied while collecting frames 1.. of a
non-resized animated image (the `for i in range(1, img.n_frames)` loop
body after `seek`/`copy`). -/
def collectFrame (output_is_apng : Bool) (output_pillow_format : String)
    (fr : Frame) : Frame :=
  let current := fr.copy
  if output_is_apng = true ∧ current.mode = Mode.P ∧ current.transparencyInfo = true then
    current.convert Mode.RGBA
  else if output_pillow_format = "JPEG" ∧ current.mode ∈ [Mode.RGBA, Mode.LA, Mode.P] then
    let c1 := if current.mode = Mode.P ∧ current.transparencyInfo = true
              then current.convert Mode.RGBA else current
    if c1.mode ∈ [Mode.RGBA, Mode.LA] then c1.convert Mode.RGB else c1
  else current

/-- Exception kinds distinguished by the handlers of
`_process_single_image`. -/
inductive PilErr where
  | unidentified
  | attrErr
  | ioErr
  | otherExc
deriving DecidableEq, Repr

/-- One `Image.save` invocation: output path, the image saved, the format
and the options dictionary. -/
structure SaveCall where
  path : String
  frame : Frame
  format : String
  opts : SaveOptions
deriving DecidableEq, Repr

/-- Save phase of `_process_single_image`.  `is_saving_animated` is
`bool(resized_frames_for_animation) or (is_animated and not
resized_frames_for_animation and n_frames > 1)` read from the working
image.  Animated saves happen only for GIF/WEBP/TIFF/PNG/HEIF; in the
HEIF-without-codec branch the code evaluates `logger.warning()` with no
message argument, which raises `TypeError` (caught by the generic
`except Exception` handler), so that branch is an error, not a save.
Otherwise animated metadata is added and the appended frames are the
retained resized ones (from index 1) or the collected original frames. -/
def saveStage (output_path output_pillow_format : String)
    (output_is_apng : Bool) (quality : Nat) (heifLoaded : Bool)
    (img0 : SourceImage) (fr : Frame) (wAnim : Bool) (wN : Nat)
    (retained : Option (List Frame)) : Except PilErr SaveCall :=
  let save_options := get_pillow_save_options output_pillow_format quality
  let is_saving_animated :=
    retained.isSome || (wAnim && retained.isNone && decide (wN > 1))
  if is_saving_animated = true ∧
      output_pillow_format ∈ ["GIF", "WEBP", "TIFF", "PNG", "HEIF"] then
    if output_pillow_format = "HEIF" ∧ heifLoaded = false then
      Except.error PilErr.otherExc
    else
      let opts := { save_options with
                    save_all := true,
                    duration := some (fr.durationInfo.getD 100),
                    loop := some (fr.loopInfo.getD 0) }
      match retained with
      | some frames =>
        Except.ok ⟨output_path, fr, output_pillow_format,
                   { opts with append_images := frames.drop 1 }⟩
      | none =>
        Except.ok ⟨output_path, fr, output_pillow_format,
                   { opts with append_images :=
                       img0.rest.map (collectFrame output_is_apng output_pillow_format) }⟩
  else
    Except.ok ⟨output_path, fr, output_pillow_format, save_options⟩

/-- The body of `_process_single_image` after a successful `Image.open`:
resize stage, JPEG normalization, APNG normalization, then the save
phase. -/
def process_single_image_core (img0 : SourceImage)
    (output_path output_pillow_format : String) (output_is_apng : Bool)
    (quality : Nat) (target_resolution : Option (Nat × Nat))
    (forceAspect : Bool) (heifLoaded : Bool) : Except PilErr SaveCall :=
  let r := resizeStage img0 target_resolution forceAspect
  let j := jpegStage output_pillow_format r.frame r.retained
  let a := apngStage output_is_apng j.1 j.2
  saveStage output_path output_pillow_format output_is_apng quality heifLoaded
    img0 a.1 r.wAnim r.wN a.2

/-- `_process_single_image` including the `Image.open` call: the decode
oracle stands for the codec, and an `Except.error` is what the handlers
catch before the function returns `False`. -/
def process_single_image (decode : String → Except PilErr SourceImage)
    (input_path output_path output_pillow_format : String)
    (output_is_apng : Bool) (quality : Nat)
    (target_resolution : Option (Nat × Nat)) (forceAspect : Bool)
    (heifLoaded : Bool) : Except PilErr SaveCall :=
  match decode input_path with
  | Except.error e => Except.error e
  | Except.ok img0 =>
    process_single_image_core img0 output_path output_pillow_format
      output_is_apng quality target_resolution forceAspect heifLoaded

/-- `Path(name).stem`: the name without its last suffix; a suffix exists
only when the last dot is neither the first nor the last character. -/
def pathStem (name : String) : String :=
  let cs := name.data
  let n := cs.length
  match ((List.range n).filter (fun i => cs.getD i ' ' = '.')).getLast? with
  | some i => if 0 < i ∧ i < n - 1 then ⟨cs.take i⟩ else name
  | none => name

/-- One iteration of the loop of `run_batch_processing`: derive the output
path as `output_dir / (stem + extension)`, run `_process_single_image`,
and bump the processed or error counter.  The accumulator also records
every save call issued. -/
def batchStep (output_dir : String) (details : FormatDetails)
    (output_file_extension : String) (quality : Nat)
    (target_resolution : Option (Nat × Nat)) (forceAspect heifLoaded : Bool)
    (output_is_apng : Bool) (decode : String → Except PilErr SourceImage)
    (acc : (Nat × Nat) × List SaveCall) (input_path : String) :
    (Nat × Nat) × List SaveCall :=
  match process_single_image decode input_path
      (output_dir ++ "/" ++ pathStem input_path ++ output_file_extension)
      details.pillow_format output_is_apng quality target_resolution
      forceAspect heifLoaded with
  | Except.ok sc => ((acc.1.1 + 1, acc.1.2), acc.2 ++ [sc])
  | Except.error _ => ((acc.1.1, acc.1.2 + 1), acc.2)

/-- `run_batch_processing` of `src/image_processing.py`: compute
`output_is_apng`, short-circuit when the target is HEIF and `pillow_heif`
is not loaded (zero processed, every file an error, nothing written),
otherwise fold the per-file step over the list.  The result is
`((processed_count, error_count), saves issued)`. -/
def run_batch_processing (files_to_process : List String) (output_dir : String)
    (output_format_details : FormatDetails) (output_file_extension : String)
    (quality : Nat) (target_resolution : Option (Nat × Nat))
    (forceAspect : Bool) (heifLoaded : Bool)
    (decode : String → Except PilErr SourceImage) :
    (Nat × Nat) × List SaveCall :=
  if output_format_details.pillow_format = "HEIF" ∧ heifLoaded = false then
    ((0, files_to_process.length), [])
  else
    files_to_process.foldl
      (batchStep output_dir output_format_details output_file_extension quality
        target_resolution forceAspect heifLoaded
        ((output_format_details.pillow_format == "PNG")
          && (strLower output_file_extension == ".apng")) decode)
      ((0, 0), [])

/-- `sorted(list(set(xs)))`: the distinct elements in ascending order. -/
def sortedDedup (l : List String) : List String :=
  List.insertionSort (· ≤ ·) l.dedup

/-- `find_image_files` of `src/image_processing.py`, over a directory
modelled as its list of entry names and `glob(f"*{suffix}")` as a suffix
filter.  Under the wildcard every registered format contributes its
suffix matches, HEIF formats being skipped when `pillow_heif` is absent;
a specific HEIF format without the codec yields the empty list; the
collected names are deduplicated and sorted. -/
def find_image_files (dirFiles : List String)
    (input_format_details : FormatDetails) (heifLoaded : Bool) : List String :=
  let collected :=
    if input_format_details.pillow_format = ALL_FORMATS_KEYWORD then
      (SUPPORTED_FORMATS.filter
        (fun p => !((p.2.pillow_format == "HEIF") && !heifLoaded))).flatMap
        (fun p => p.2.suffixes.flatMap
          (fun suffix => dirFiles.filter (fun f => strEndsWith f suffix)))
    else if input_format_details.pillow_format = "HEIF" ∧ heifLoaded = false then
      []
    else
      input_format_details.suffixes.flatMap
        (fun suffix => dirFiles.filter (fun f => strEndsWith f suffix))
  sortedDedup collected

/-! Concrete fixtures used by counterexamples and witnesses. -/

/-- A single-frame Palette image without a transparency entry (e.g. a
fully opaque GIF). -/
def palNoTransFrame : Frame := ⟨Mode.P, 10, 10, false, none, none⟩

def palNoTransImg : SourceImage := ⟨palNoTransFrame, [], false⟩

/-- A single-frame Palette image with a transparency entry. -/
def palTransFrame : Frame := ⟨Mode.P, 8, 8, true, none, none⟩

def palTransImg : SourceImage := ⟨palTransFrame, [], false⟩

/-- A plain RGB frame. -/
def rgbFrame : Frame := ⟨Mode.RGB, 6, 6, false, none, none⟩

/-- A two-frame animated image. -/
def animTwoFrameImg : SourceImage := ⟨rgbFrame, [rgbFrame], true⟩

/-- A single-frame 4000 × 2000 RGB image. -/
def rgb4000Img : SourceImage := ⟨⟨Mode.RGB, 4000, 2000, false, none, none⟩, [], false⟩

/-- A single-frame RGBA image. -/
def rgbaImg : SourceImage := ⟨⟨Mode.RGBA, 5, 5, false, none, none⟩, [], false⟩

/-! Theorems. -/

/-- Claim C10: the save-options mapping yields exactly the quality entry
for JPEG, WEBP and HEIF, exactly the optimize flag for PNG, and the
empty option set for every other codec format name, so quality has no
effect on GIF, BMP, TIFF or PNG outputs. -/
theorem save_options_exact (fmt : String) (q : Nat) :
    (fmt ∈ ["JPEG", "WEBP", "HEIF"] →
      get_pillow_save_options fmt q = { quality := some q })
    ∧ (fmt = "PNG" → get_pillow_save_options fmt q = { optimize := true })
    ∧ (fmt ∉ ["JPEG", "WEBP", "HEIF", "PNG"] →
      get_pillow_save_options fmt q = ({} : SaveOptions)) := by
  refine ⟨?_, ?_, ?_⟩
  · intro h
    simp only [List.mem_cons, List.not_mem_nil, or_false] at h
    rcases h with rfl | rfl | rfl <;> rfl
  · rintro rfl; rfl
  · intro h
    simp only [List.mem_cons, List.not_mem_nil, or_false, not_or] at h
    obtain ⟨h1, h2, h3, h4⟩ := h
    simp [get_pillow_save_options, h1, h2, h3, h4]

/-- Witness for C10 at the concrete format JPEG, quality 85. -/
theorem save_options_exact_witness :
    "JPEG" ∈ ["JPEG", "WEBP", "HEIF"]
    ∧ get_pillow_save_options "JPEG" 85 = { quality := some 85 } :=
  ⟨by decide, (save_options_exact "JPEG" 85).1 (by decide)⟩

/-- Claim C8: for every supported format identifier, resolution is
case-insensitive and dot-insensitive, and always succeeds. -/
theorem resolve_case_dot_insensitive :
    ∀ s ∈ ["png", "jpg", "jpeg", "webp", "tiff", "bmp", "gif", "apng",
           "heic", "heif"],
      validate_and_get_format_details (strUpper s) "output"
          = validate_and_get_format_details s "output"
        ∧ validate_and_get_format_details ("." ++ s) "output"
          = validate_and_get_format_details s "output"
        ∧ (validate_and_get_format_details s "output").isSome = true := by
  decide

/-- Witness for C8 at the identifier png ("PNG", ".png", "png"). -/
theorem resolve_case_dot_insensitive_witness :
    "png" ∈ ["png", "jpg", "jpeg", "webp", "tiff", "bmp", "gif", "apng",
             "heic", "heif"]
    ∧ (validate_and_get_format_details (strUpper "png") "output"
          = validate_and_get_format_details "png" "output"
        ∧ validate_and_get_format_details ("." ++ "png") "output"
          = validate_and_get_format_details "png" "output"
        ∧ (validate_and_get_format_details "png" "output").isSome = true) :=
  ⟨by decide, resolve_case_dot_insensitive "png" (by decide)⟩

/-- `sortedDedup` produces a duplicate-free list. -/
theorem sortedDedup_nodup (l : List String) : (sortedDedup l).Nodup :=
  ((List.perm_insertionSort _ _).nodup_iff).mpr l.nodup_dedup

/-- `sortedDedup` produces a sorted list. -/
theorem sortedDedup_sorted (l : List String) :
    List.Sorted (· ≤ ·) (sortedDedup l) :=
  List.sorted_insertionSort _ _

/-- Claim C7: for every directory content and format filter, discovery
returns a list without duplicate paths, in sorted order. -/
theorem find_image_files_nodup_sorted (dirFiles : List String)
    (details : FormatDetails) (heifLoaded : Bool) :
    (find_image_files dirFiles details heifLoaded).Nodup
    ∧ List.Sorted (· ≤ ·) (find_image_files dirFiles details heifLoaded) :=
  ⟨sortedDedup_nodup _, sortedDedup_sorted _⟩

/-- Claim C4: with a HEIF target and no HEIF codec, the batch runner
short-circuits: zero processed, every input counted as an error, and no
save call issued, whatever the decode oracle would have returned. -/
theorem heif_unavailable_short_circuit (files : List String)
    (output_dir : String) (details : FormatDetails) (ext : String)
    (quality : Nat) (tr : Option (Nat × Nat)) (forceAspect : Bool)
    (decode : String → Except PilErr SourceImage)
    (h : details.pillow_format = "HEIF") :
    run_batch_processing files output_dir details ext quality tr forceAspect
        false decode
      = ((0, files.length), []) := by
  simp [run_batch_processing, h]

/-- Witness for C4: two input files, format heic, decode never consulted. -/
theorem heif_unavailable_short_circuit_witness :
    (⟨"HEIF", [".heic"]⟩ : FormatDetails).pillow_format = "HEIF"
    ∧ run_batch_processing ["a.png", "b.gif"] "out" ⟨"HEIF", [".heic"]⟩
        ".heic" 85 none false false (fun _ => Except.error PilErr.unidentified)
      = ((0, (["a.png", "b.gif"] : List String).length), []) :=
  ⟨rfl, heif_unavailable_short_circuit ["a.png", "b.gif"] "out"
    ⟨"HEIF", [".heic"]⟩ ".heic" 85 none false
    (fun _ => Except.error PilErr.unidentified) rfl⟩

/-- Each batch iteration increments exactly one of the two counters. -/
theorem batchStep_counts (output_dir : String) (details : FormatDetails)
    (ext : String) (quality : Nat) (tr : Option (Nat × Nat))
    (forceAspect heifLoaded isApng : Bool)
    (decode : String → Except PilErr SourceImage)
    (acc : (Nat × Nat) × List SaveCall) (input_path : String) :
    (batchStep output_dir details ext quality tr forceAspect heifLoaded isApng
        decode acc input_path).1.1
      + (batchStep output_dir details ext quality tr forceAspect heifLoaded
          isApng decode acc input_path).1.2
      = acc.1.1 + acc.1.2 + 1 := by
  unfold batchStep
  split <;> simp <;> omega

/-- Folding the batch step over any file list adds the list length to the
sum of the two counters. -/
theorem foldl_batchStep_counts (output_dir : String) (details : FormatDetails)
    (ext : String) (quality : Nat) (tr : Option (Nat × Nat))
    (forceAspect heifLoaded isApng : Bool)
    (decode : String → Except PilErr SourceImage) :
    ∀ (l : List String) (acc : (Nat × Nat) × List SaveCall),
      (l.foldl (batchStep output_dir details ext quality tr forceAspect
          heifLoaded isApng decode) acc).1.1
        + (l.foldl (batchStep output_dir details ext quality tr forceAspect
            heifLoaded isApng decode) acc).1.2
        = acc.1.1 + acc.1.2 + l.length := by
  intro l
  induction l with
  | nil => intro acc; simp
  | cons x xs ih =>
    intro acc
    rw [List.foldl_cons]
    have h1 := ih (batchStep output_dir details ext quality tr forceAspect
      heifLoaded isApng decode acc x)
    have h2 := batchStep_counts output_dir details ext quality tr forceAspect
      heifLoaded isApng decode acc x
    simp only [List.length_cons]
    omega

/-- Claim C6: per-file failures never escape the loop; for every input
list and decode behavior the two counters always partition the list, so
processed plus errors equals the number of input files. -/
theorem batch_counts_partition (files : List String) (output_dir : String)
    (details : FormatDetails) (ext : String) (quality : Nat)
    (tr : Option (Nat × Nat)) (forceAspect heifLoaded : Bool)
    (decode : String → Except PilErr SourceImage) :
    (run_batch_processing files output_dir details ext quality tr forceAspect
        heifLoaded decode).1.1
      + (run_batch_processing files output_dir details ext quality tr
          forceAspect heifLoaded decode).1.2
      = files.length := by
  unfold run_batch_processing
  split
  · simp
  · have := foldl_batchStep_counts output_dir details ext quality tr
      forceAspect heifLoaded
      ((details.pillow_format == "PNG") && (strLower ext == ".apng"))
      decode files ((0, 0), [])
    have h0 : (((0 : Nat), (0 : Nat)), ([] : List SaveCall)).1.1 = 0 := rfl
    have h1 : (((0 : Nat), (0 : Nat)), ([] : List SaveCall)).1.2 = 0 := rfl
    rw [h0, h1] at this
    omega

/-- For a one-frame image the animated-resize branch is never entered:
no frame sequence is retained and the working frame count stays 1. -/
theorem resizeStage_of_single (img0 : SourceImage)
    (tr : Option (Nat × Nat)) (forceAspect : Bool) (h1 : img0.nFrames = 1) :
    (resizeStage img0 tr forceAspect).retained = none
    ∧ (resizeStage img0 tr forceAspect).wN = 1 := by
  cases tr with
  | none => exact ⟨rfl, h1⟩
  | some t =>
    simp only [resizeStage]
    rw [if_neg (by simp [h1] : ¬(img0.isAnimated = true ∧ img0.nFrames > 1))]
    split
    · exact ⟨rfl, rfl⟩
    · exact ⟨rfl, h1⟩

/-- The JPEG block leaves an absent retained-frame sequence absent. -/
theorem jpegFlatten_retained_none (fr1 : Frame) :
    (jpegFlatten fr1 none).2 = none := by
  unfold jpegFlatten
  split <;> rfl

theorem jpegStage_retained_none (fmt : String) (fr : Frame) :
    (jpegStage fmt fr none).2 = none := by
  unfold jpegStage
  split
  · exact jpegFlatten_retained_none _
  · rfl

/-- The APNG block leaves an absent retained-frame sequence absent. -/
theorem apngStage_retained_none (isApng : Bool) (fr : Frame) :
    (apngStage isApng fr none).2 = none := by
  unfold apngStage
  split <;> rfl

/-- With no retained frames and a working frame count of 1, the save
phase issues a plain single-frame save with the base options. -/
theorem saveStage_not_animated (output_path fmt : String) (isApng : Bool)
    (quality : Nat) (heifLoaded : Bool) (img0 : SourceImage) (fr : Frame)
    (wAnim : Bool) :
    saveStage output_path fmt isApng quality heifLoaded img0 fr wAnim 1 none
      = Except.ok ⟨output_path, fr, fmt, get_pillow_save_options fmt quality⟩ := by
  simp [saveStage]

/-- `get_pillow_save_options` never sets the animation entries. -/
theorem save_options_no_animation (fmt : String) (q : Nat) :
    (get_pillow_save_options fmt q).save_all = false
    ∧ (get_pillow_save_options fmt q).append_images = [] := by
  unfold get_pillow_save_options
  split <;> split <;> exact ⟨rfl, rfl⟩

/-- Claim C9: a decoded image with frame count 1 is never saved through
the animated branch: processing succeeds with a save call whose options
carry no `save_all` flag and no appended images, for every target format
and resize configuration. -/
theorem single_frame_never_animated (img0 : SourceImage)
    (output_path fmt : String) (isApng : Bool) (quality : Nat)
    (tr : Option (Nat × Nat)) (forceAspect heifLoaded : Bool)
    (h1 : img0.nFrames = 1) :
    ∃ sc, process_single_image_core img0 output_path fmt isApng quality tr
        forceAspect heifLoaded = Except.ok sc
      ∧ sc.opts.save_all = false ∧ sc.opts.append_images = [] := by
  obtain ⟨hr, hn⟩ := resizeStage_of_single img0 tr forceAspect h1
  simp only [process_single_image_core]
  rw [hr, hn, jpegStage_retained_none, apngStage_retained_none,
    saveStage_not_animated]
  exact ⟨_, rfl, save_options_no_animation fmt quality⟩

/-- Witness for C9: a single-frame RGBA image, WEBP target, forced
resize. -/
theorem single_frame_never_animated_witness :
    rgbaImg.nFrames = 1
    ∧ ∃ sc, process_single_image_core rgbaImg "out/a.webp" "WEBP" false 90
          (some (3, 3)) true true = Except.ok sc
        ∧ sc.opts.save_all = false ∧ sc.opts.append_images = [] :=
  ⟨rfl, single_frame_never_animated rgbaImg "out/a.webp" "WEBP" false 90
    (some (3, 3)) true true rfl⟩

/-- Counterexample to C2 as stated: requesting output format apng makes
the app derive the canonical extension `suffixes[0] = ".png"`, so
`output_is_apng` is false and a Palette frame with a transparency entry
is saved still in Palette mode rather than promoted to RGBA. -/
theorem apng_request_keeps_palette_mode :
    validate_and_get_format_details "apng" "output"
        = some ⟨"PNG", [".png", ".apng"]⟩
    ∧ (FormatDetails.mk "PNG" [".png", ".apng"]).suffixes.headD "" = ".png"
    ∧ (run_batch_processing ["a.png"] "out" ⟨"PNG", [".png", ".apng"]⟩
          ".png" 85 none false true (fun _ => Except.ok palTransImg)).2.map
        (fun sc => sc.frame.mode) = [Mode.P]
    ∧ palTransFrame.mode = Mode.P ∧ palTransFrame.transparencyInfo = true :=
  ⟨rfl, rfl, rfl, rfl, rfl⟩

/-- Claim C3's branch as the code actually behaves: an animated image
with a HEIF target and no HEIF codec reaches the `logger.warning()` call,
which (called without its required message argument) raises `TypeError`;
the generic handler swallows it and `_process_single_image` reports
failure, saving nothing. -/
theorem heif_animated_no_codec_fails :
    process_single_image_core animTwoFrameImg "out/a.heic" "HEIF" false 85
        none false false = Except.error PilErr.otherExc
    ∧ (process_single_image (fun _ => Except.ok animTwoFrameImg) "a.gif"
        "out/a.heic" "HEIF" false 85 none false false).isOk = false :=
  ⟨rfl, rfl⟩

/-- After the JPEG block the working frame is never RGBA or LA, is never
Palette-with-transparency, and a frame that entered as
Palette-with-transparency or as RGBA leaves as RGB. -/
theorem jpegStage_frame_modes (fr : Frame) (rz : Option (List Frame)) :
    (jpegStage "JPEG" fr rz).1.mode ≠ Mode.RGBA
    ∧ (jpegStage "JPEG" fr rz).1.mode ≠ Mode.LA
    ∧ ¬((jpegStage "JPEG" fr rz).1.mode = Mode.P
        ∧ (jpegStage "JPEG" fr rz).1.transparencyInfo = true)
    ∧ (fr.mode = Mode.P ∧ fr.transparencyInfo = true →
        (jpegStage "JPEG" fr rz).1.mode = Mode.RGB)
    ∧ (fr.mode = Mode.RGBA → (jpegStage "JPEG" fr rz).1.mode = Mode.RGB) := by
  rcases fr with ⟨m, w, h, t, d, l⟩
  cases m <;> cases t <;>
    simp [jpegStage, jpegFlatten, Frame.convert]

/-- The APNG block does nothing when the working frame is not
Palette-with-transparency. -/
theorem apngStage_noop (isApng : Bool) (fr : Frame)
    (rz : Option (List Frame))
    (h : ¬(fr.mode = Mode.P ∧ fr.transparencyInfo = true)) :
    apngStage isApng fr rz = (fr, rz) := by
  unfold apngStage
  rw [if_neg]
  rintro ⟨-, h2, h3⟩
  exact h ⟨h2, h3⟩

/-- For a format outside the animated-save list the save phase always
issues a plain single-frame save. -/
theorem saveStage_single_of_fmt (output_path fmt : String) (isApng : Bool)
    (quality : Nat) (heifLoaded : Bool) (img0 : SourceImage) (fr : Frame)
    (wAnim : Bool) (wN : Nat) (rz : Option (List Frame))
    (h : fmt ∉ ["GIF", "WEBP", "TIFF", "PNG", "HEIF"]) :
    saveStage output_path fmt isApng quality heifLoaded img0 fr wAnim wN rz
      = Except.ok ⟨output_path, fr, fmt, get_pillow_save_options fmt quality⟩ := by
  unfold saveStage
  rw [if_neg (fun hc => h hc.2)]

/-- If the representative frame starts as Palette-with-transparency, then
after the resize stage it is still Palette-with-transparency (no resize,
or a plain single-frame resize) or already RGBA (the animated path
converts Palette frames before resizing). -/
theorem resizeStage_frame_of_palette (img0 : SourceImage)
    (tr : Option (Nat × Nat)) (forceAspect : Bool)
    (h : img0.frame0.mode = Mode.P ∧ img0.frame0.transparencyInfo = true) :
    ((resizeStage img0 tr forceAspect).frame.mode = Mode.P
      ∧ (resizeStage img0 tr forceAspect).frame.transparencyInfo = true)
    ∨ (resizeStage img0 tr forceAspect).frame.mode = Mode.RGBA := by
  obtain ⟨hm, ht⟩ := h
  cases tr with
  | none => exact Or.inl ⟨hm, ht⟩
  | some t =>
    simp only [resizeStage]
    split
    · simp only [List.map_cons]
      right
      unfold resizeFrameForAnim
      rw [if_pos hm]
      cases forceAspect <;>
        simp [Frame.resizeTo, Frame.thumbnailTo, Frame.convert]
    · split
      · exact Or.inl ⟨by simp [Frame.resizeTo, hm], by simp [Frame.resizeTo, ht]⟩
      · exact Or.inl ⟨by simp [Frame.thumbnailTo, hm], by simp [Frame.thumbnailTo, ht]⟩

/-- Claim C1 as amended: for a JPEG target the save is always a plain
single-frame save (JPEG is not an animated-save format, so no retained
or collected frame is ever written), the saved frame is never RGBA or
GrayscaleAlpha and never Palette-with-a-transparency-entry — and a
representative frame that was Palette-with-transparency is saved as RGB.
A Palette frame without a transparency entry, however, stays Palette. -/
theorem jpeg_saved_frame_alpha_free (img0 : SourceImage)
    (output_path : String) (isApng : Bool) (quality : Nat)
    (tr : Option (Nat × Nat)) (forceAspect heifLoaded : Bool) :
    ∃ sc, process_single_image_core img0 output_path "JPEG" isApng quality tr
        forceAspect heifLoaded = Except.ok sc
      ∧ sc.opts.save_all = false
      ∧ sc.opts.append_images = []
      ∧ sc.frame.mode ≠ Mode.RGBA
      ∧ sc.frame.mode ≠ Mode.LA
      ∧ ¬(sc.frame.mode = Mode.P ∧ sc.frame.transparencyInfo = true)
      ∧ ((img0.frame0.mode = Mode.P ∧ img0.frame0.transparencyInfo = true) →
          sc.frame.mode = Mode.RGB) := by
  obtain ⟨h1, h2, h3, h4, h5⟩ :=
    jpegStage_frame_modes (resizeStage img0 tr forceAspect).frame
      (resizeStage img0 tr forceAspect).retained
  simp only [process_single_image_core]
  rw [apngStage_noop _ _ _ h3,
    saveStage_single_of_fmt _ _ _ _ _ _ _ _ _ _ (by decide)]
  refine ⟨_, rfl, (save_options_no_animation "JPEG" quality).1,
    (save_options_no_animation "JPEG" quality).2, h1, h2, h3, ?_⟩
  intro hp
  rcases resizeStage_frame_of_palette img0 tr forceAspect hp with hq | hq
  · exact h4 hq
  · exact h5 hq

/-- Witness for C1's amended theorem: a Palette-with-transparency
single-frame image converted to JPEG. -/
theorem jpeg_saved_frame_alpha_free_witness :
    ∃ sc, process_single_image_core palTransImg "out/a.jpg" "JPEG" false 85
        none false true = Except.ok sc
      ∧ sc.opts.save_all = false
      ∧ sc.opts.append_images = []
      ∧ sc.frame.mode ≠ Mode.RGBA
      ∧ sc.frame.mode ≠ Mode.LA
      ∧ ¬(sc.frame.mode = Mode.P ∧ sc.frame.transparencyInfo = true)
      ∧ ((palTransImg.frame0.mode = Mode.P
            ∧ palTransImg.frame0.transparencyInfo = true) →
          sc.frame.mode = Mode.RGB) :=
  jpeg_saved_frame_alpha_free palTransImg "out/a.jpg" false 85 none false true

/-- Counterexample to C1 as stated: a single-frame Palette image without
a transparency entry processed with a JPEG target is saved still in
Palette mode, so a frame in Palette mode does remain at save time. -/
theorem jpeg_palette_no_transparency_stays_palette :
    (process_single_image_core palNoTransImg "out/a.jpg" "JPEG" false 85 none
        false true).map (fun sc => sc.frame.mode) = Except.ok Mode.P
    ∧ palNoTransFrame.mode = Mode.P
    ∧ palNoTransFrame.transparencyInfo = false :=
  ⟨rfl, rfl, rfl⟩

/-- `roundAspect` never returns less than 1. -/
theorem one_le_roundAspect (q : ℚ) (key : ℤ → ℚ) : 1 ≤ roundAspect q key :=
  le_max_right _ _

/-- `roundAspect` stays below any integer bound that is at least 1 and at
least the rounded value. -/
theorem roundAspect_le_of (q : ℚ) (key : ℤ → ℚ) (B : ℤ) (hB : 1 ≤ B)
    (hq : q ≤ (B : ℚ)) : roundAspect q key ≤ B := by
  unfold roundAspect
  have hc : ⌈q⌉ ≤ B := Int.ceil_le.mpr hq
  have hf : ⌊q⌋ ≤ B := le_trans (Int.floor_le_ceil q) hc
  refine max_le ?_ hB
  split
  · exact hf
  · exact hc

/-- `roundAspect` is at least the rounded value minus one. -/
theorem roundAspect_ge (q : ℚ) (key : ℤ → ℚ) :
    q - 1 ≤ (roundAspect q key : ℚ) := by
  have h3 : q - 1 < (⌊q⌋ : ℚ) := Int.sub_one_lt_floor q
  have h1 : ⌊q⌋ ≤ roundAspect q key := by
    unfold roundAspect
    apply le_max_of_le_left
    split
    · exact le_rfl
    · exact Int.floor_le_ceil q
  have h1q : ((⌊q⌋ : ℤ) : ℚ) ≤ (roundAspect q key : ℚ) := by exact_mod_cast h1
  linarith

/-- For a nonnegative value, `roundAspect` is at most the value plus one. -/
theorem roundAspect_le_add_one (q : ℚ) (key : ℤ → ℚ) (hq : 0 ≤ q) :
    (roundAspect q key : ℚ) ≤ q + 1 := by
  have h1 : roundAspect q key ≤ max ⌈q⌉ 1 := by
    unfold roundAspect
    refine max_le_max ?_ le_rfl
    split
    · exact Int.floor_le_ceil q
    · exact le_rfl
  have h1q : (roundAspect q key : ℚ) ≤ ((max ⌈q⌉ 1 : ℤ) : ℚ) := by
    exact_mod_cast h1
  rw [Int.cast_max] at h1q
  push_cast at h1q
  have hceil : (⌈q⌉ : ℚ) < q + 1 := Int.ceil_lt_add_one q
  exact h1q.trans (max_le (le_of_lt hceil) (by linarith))

/-- The fit-resize contract: `thumbnailSize w h x y` fits inside the
`x × y` bounding box, never exceeds the original `w × h`, keeps both
dimensions positive, and preserves the `w : h` aspect ratio up to the
one-pixel rounding of the scaled dimension. -/
theorem thumbnailSize_spec (w h x y : ℕ) (hw : 1 ≤ w) (hh : 1 ≤ h)
    (hx : 1 ≤ x) (hy : 1 ≤ y) :
    (thumbnailSize w h x y).1 ≤ x ∧ (thumbnailSize w h x y).2 ≤ y
    ∧ (thumbnailSize w h x y).1 ≤ w ∧ (thumbnailSize w h x y).2 ≤ h
    ∧ 1 ≤ (thumbnailSize w h x y).1 ∧ 1 ≤ (thumbnailSize w h x y).2
    ∧ |((thumbnailSize w h x y).1 : ℚ) * (h : ℚ)
        - ((thumbnailSize w h x y).2 : ℚ) * (w : ℚ)|
      ≤ max (w : ℚ) (h : ℚ) := by
  have hw0 : (0 : ℚ) < (w : ℚ) := by exact_mod_cast hw
  have hh0 : (0 : ℚ) < (h : ℚ) := by exact_mod_cast hh
  have hx0 : (0 : ℚ) < (x : ℚ) := by exact_mod_cast hx
  have hy0 : (0 : ℚ) < (y : ℚ) := by exact_mod_cast hy
  unfold thumbnailSize
  split
  case isTrue hA =>
    refine ⟨hA.1, hA.2, le_rfl, le_rfl, hw, hh, ?_⟩
    show |(w : ℚ) * (h : ℚ) - (h : ℚ) * (w : ℚ)| ≤ max (w : ℚ) (h : ℚ)
    have hz : (w : ℚ) * (h : ℚ) - (h : ℚ) * (w : ℚ) = 0 := by ring
    rw [hz, abs_zero]
    exact le_max_of_le_left (le_of_lt hw0)
  case isFalse hA =>
    split
    case isTrue hbr =>
      set q : ℚ := (y : ℚ) * ((w : ℚ) / (h : ℚ)) with hqdef
      set r : ℤ := roundAspect q
        (fun n => |(w : ℚ) / (h : ℚ) - (n : ℚ) / (y : ℚ)|) with hrdef
      have hcross : (w : ℚ) * (y : ℚ) ≤ (x : ℚ) * (h : ℚ) :=
        (div_le_div_iff₀ hh0 hy0).mp hbr
      have hyh : y ≤ h := by
        by_contra hcon
        push_neg at hcon
        have hxw : x < w := by
          rcases not_and_or.mp hA with h1 | h1 <;> omega
        have c1 : (x : ℚ) * (h : ℚ) < (w : ℚ) * (h : ℚ) :=
          mul_lt_mul_of_pos_right (by exact_mod_cast hxw) hh0
        have c2 : (w : ℚ) * (h : ℚ) < (w : ℚ) * (y : ℚ) :=
          mul_lt_mul_of_pos_left (by exact_mod_cast hcon) hw0
        linarith
      have hyhq : (y : ℚ) ≤ (h : ℚ) := by exact_mod_cast hyh
      have hq0 : 0 < q := by
        rw [hqdef]
        exact mul_pos hy0 (div_pos hw0 hh0)
      have hqx : q ≤ (x : ℚ) := by
        rw [hqdef, ← mul_div_assoc, div_le_iff₀ hh0]
        have hcomm : (w : ℚ) * (y : ℚ) = (y : ℚ) * (w : ℚ) := mul_comm _ _
        linarith
      have hqw : q ≤ (w : ℚ) := by
        rw [hqdef, ← mul_div_assoc, div_le_iff₀ hh0]
        have hm : (y : ℚ) * (w : ℚ) ≤ (h : ℚ) * (w : ℚ) :=
          mul_le_mul_of_nonneg_right hyhq (le_of_lt hw0)
        have hcomm : (w : ℚ) * (h : ℚ) = (h : ℚ) * (w : ℚ) := mul_comm _ _
        linarith
      have hr1 : 1 ≤ r := one_le_roundAspect _ _
      have hrx : r ≤ (x : ℤ) :=
        roundAspect_le_of _ _ _ (by exact_mod_cast hx) (by push_cast; exact hqx)
      have hrw : r ≤ (w : ℤ) :=
        roundAspect_le_of _ _ _ (by exact_mod_cast hw) (by push_cast; exact hqw)
      have hr0 : (0 : ℤ) ≤ r := le_trans zero_le_one hr1
      have hcastr : ((r.toNat : ℕ) : ℚ) = (r : ℚ) := by
        rw [← Int.cast_natCast, Int.toNat_of_nonneg hr0]
      refine ⟨Int.toNat_le.mpr hrx, le_rfl, Int.toNat_le.mpr hrw, hyh,
        by omega, hy, ?_⟩
      show |((r.toNat : ℕ) : ℚ) * (h : ℚ) - (y : ℚ) * (w : ℚ)|
        ≤ max (w : ℚ) (h : ℚ)
      rw [hcastr]
      have hnear1 : q - 1 ≤ (r : ℚ) := roundAspect_ge _ _
      have hnear2 : (r : ℚ) ≤ q + 1 := roundAspect_le_add_one _ _ (le_of_lt hq0)
      have hh0' : (h : ℚ) ≠ 0 := ne_of_gt hh0
      have hqh : q * (h : ℚ) = (y : ℚ) * (w : ℚ) := by
        rw [hqdef]
        field_simp
      have habs : |(r : ℚ) * (h : ℚ) - (y : ℚ) * (w : ℚ)| ≤ (h : ℚ) := by
        rw [← hqh, ← sub_mul, abs_mul, abs_of_pos hh0]
        have hd : |(r : ℚ) - q| ≤ 1 := abs_le.mpr ⟨by linarith, by linarith⟩
        calc |(r : ℚ) - q| * (h : ℚ) ≤ 1 * (h : ℚ) :=
              mul_le_mul_of_nonneg_right hd (le_of_lt hh0)
          _ = (h : ℚ) := one_mul _
      exact habs.trans (le_max_right _ _)
    case isFalse hbr =>
      push_neg at hbr
      set q : ℚ := (x : ℚ) / ((w : ℚ) / (h : ℚ)) with hqdef
      set r : ℤ := roundAspect q
        (fun n => if n = 0 then 0
                  else |(w : ℚ) / (h : ℚ) - (x : ℚ) / (n : ℚ)|) with hrdef
      have hcross : (x : ℚ) * (h : ℚ) < (w : ℚ) * (y : ℚ) :=
        (div_lt_div_iff₀ hy0 hh0).mp hbr
      have hxw : x ≤ w := by
        by_contra hcon
        push_neg at hcon
        have hyh : y < h := by
          rcases not_and_or.mp hA with h1 | h1 <;> omega
        have c1 : (w : ℚ) * (h : ℚ) < (x : ℚ) * (h : ℚ) :=
          mul_lt_mul_of_pos_right (by exact_mod_cast hcon) hh0
        have c2 : (w : ℚ) * (y : ℚ) < (w : ℚ) * (h : ℚ) :=
          mul_lt_mul_of_pos_left (by exact_mod_cast hyh) hw0
        linarith
      have hxwq : (x : ℚ) ≤ (w : ℚ) := by exact_mod_cast hxw
      have hqeq : q = (x : ℚ) * (h : ℚ) / (w : ℚ) := by
        rw [hqdef, div_div_eq_mul_div]
      have hq0 : 0 < q := by
        rw [hqeq]
        exact div_pos (mul_pos hx0 hh0) hw0
      have hqy : q ≤ (y : ℚ) := by
        rw [hqeq, div_le_iff₀ hw0]
        have hcomm : (w : ℚ) * (y : ℚ) = (y : ℚ) * (w : ℚ) := mul_comm _ _
        linarith
      have hqh2 : q ≤ (h : ℚ) := by
        rw [hqeq, div_le_iff₀ hw0]
        have hm : (x : ℚ) * (h : ℚ) ≤ (w : ℚ) * (h : ℚ) :=
          mul_le_mul_of_nonneg_right hxwq (le_of_lt hh0)
        have hcomm : (w : ℚ) * (h : ℚ) = (h : ℚ) * (w : ℚ) := mul_comm _ _
        linarith
      have hr1 : 1 ≤ r := one_le_roundAspect _ _
      have hry : r ≤ (y : ℤ) :=
        roundAspect_le_of _ _ _ (by exact_mod_cast hy) (by push_cast; exact hqy)
      have hrh : r ≤ (h : ℤ) :=
        roundAspect_le_of _ _ _ (by exact_mod_cast hh) (by push_cast; exact hqh2)
      have hr0 : (0 : ℤ) ≤ r := le_trans zero_le_one hr1
      have hcastr : ((r.toNat : ℕ) : ℚ) = (r : ℚ) := by
        rw [← Int.cast_natCast, Int.toNat_of_nonneg hr0]
      refine ⟨le_rfl, Int.toNat_le.mpr hry, hxw, Int.toNat_le.mpr hrh,
        hx, by omega, ?_⟩
      show |(x : ℚ) * (h : ℚ) - ((r.toNat : ℕ) : ℚ) * (w : ℚ)|
        ≤ max (w : ℚ) (h : ℚ)
      rw [hcastr]
      have hnear1 : q - 1 ≤ (r : ℚ) := roundAspect_ge _ _
      have hnear2 : (r : ℚ) ≤ q + 1 := roundAspect_le_add_one _ _ (le_of_lt hq0)
      have hw0' : (w : ℚ) ≠ 0 := ne_of_gt hw0
      have hqw : q * (w : ℚ) = (x : ℚ) * (h : ℚ) := by
        rw [hqeq]
        field_simp
      have habs : |(x : ℚ) * (h : ℚ) - (r : ℚ) * (w : ℚ)| ≤ (w : ℚ) := by
        rw [abs_sub_comm, ← hqw, ← sub_mul, abs_mul, abs_of_pos hw0]
        have hd : |(r : ℚ) - q| ≤ 1 := abs_le.mpr ⟨by linarith, by linarith⟩
        calc |(r : ℚ) - q| * (w : ℚ) ≤ 1 * (w : ℚ) :=
              mul_le_mul_of_nonneg_right hd (le_of_lt hw0)
          _ = (w : ℚ) := one_mul _
      exact habs.trans (le_max_left _ _)

/-- Claim C5: for a single-frame image and a present target resolution,
the resize stage under the Forced policy yields exactly the target width
and height, and under the Fit policy yields an image inside the bounding
box, no larger than the original, with the original aspect ratio
preserved up to rounding (the cross products of the two aspect ratios
differ by at most one pixel row or column). -/
theorem resize_stage_policies (img0 : SourceImage) (x y : ℕ)
    (h1 : img0.nFrames = 1)
    (hw : 1 ≤ img0.frame0.width) (hh : 1 ≤ img0.frame0.height)
    (hx : 1 ≤ x) (hy : 1 ≤ y) :
    ((resizeStage img0 (some (x, y)) true).frame.width = x
      ∧ (resizeStage img0 (some (x, y)) true).frame.height = y)
    ∧ ((resizeStage img0 (some (x, y)) false).frame.width ≤ x
      ∧ (resizeStage img0 (some (x, y)) false).frame.height ≤ y
      ∧ (resizeStage img0 (some (x, y)) false).frame.width
          ≤ img0.frame0.width
      ∧ (resizeStage img0 (some (x, y)) false).frame.height
          ≤ img0.frame0.height
      ∧ |((resizeStage img0 (some (x, y)) false).frame.width : ℚ)
            * (img0.frame0.height : ℚ)
          - ((resizeStage img0 (some (x, y)) false).frame.height : ℚ)
            * (img0.frame0.width : ℚ)|
        ≤ max (img0.frame0.width : ℚ) (img0.frame0.height : ℚ)) := by
  have hnot : ¬(img0.isAnimated = true ∧ img0.nFrames > 1) := by simp [h1]
  have hfrT : resizeStage img0 (some (x, y)) true
      = ⟨img0.frame0.resizeTo (x, y), false, 1, none⟩ := by
    simp only [resizeStage]
    rw [if_neg hnot]
    simp
  have hfrF : resizeStage img0 (some (x, y)) false
      = ⟨img0.frame0.thumbnailTo (x, y), img0.isAnimated, img0.nFrames, none⟩ := by
    simp only [resizeStage]
    rw [if_neg hnot]
    simp
  have hspec := thumbnailSize_spec img0.frame0.width img0.frame0.height x y
    hw hh hx hy
  rw [hfrT, hfrF]
  exact ⟨⟨rfl, rfl⟩, hspec.1, hspec.2.1, hspec.2.2.1, hspec.2.2.2.1,
    hspec.2.2.2.2.2.2⟩

/-- Witness for C5 at the spec's example: a 4000 × 2000 image with target
1920 × 1080 — Forced gives exactly 1920 × 1080, Fit gives 1920 × 960. -/
theorem resize_stage_policies_witness :
    rgb4000Img.nFrames = 1
    ∧ 1 ≤ rgb4000Img.frame0.width ∧ 1 ≤ rgb4000Img.frame0.height
    ∧ (((resizeStage rgb4000Img (some (1920, 1080)) true).frame.width = 1920
        ∧ (resizeStage rgb4000Img (some (1920, 1080)) true).frame.height = 1080)
      ∧ ((resizeStage rgb4000Img (some (1920, 1080)) false).frame.width ≤ 1920
        ∧ (resizeStage rgb4000Img (some (1920, 1080)) false).frame.height ≤ 1080
        ∧ (resizeStage rgb4000Img (some (1920, 1080)) false).frame.width
            ≤ rgb4000Img.frame0.width
        ∧ (resizeStage rgb4000Img (some (1920, 1080)) false).frame.height
            ≤ rgb4000Img.frame0.height
        ∧ |((resizeStage rgb4000Img (some (1920, 1080)) false).frame.width : ℚ)
              * (rgb4000Img.frame0.height : ℚ)
            - ((resizeStage rgb4000Img (some (1920, 1080)) false).frame.height : ℚ)
              * (rgb4000Img.frame0.width : ℚ)|
          ≤ max (rgb4000Img.frame0.width : ℚ) (rgb4000Img.frame0.height : ℚ))) :=
  ⟨rfl, by decide, by decide,
    resize_stage_policies rgb4000Img 1920 1080 rfl (by decide) (by decide)
      (by decide) (by decide)⟩

end ImageComp
